import Mathlib

/-!
# Verification of the streaming chat client (`src/lib/cloud-api.ts`)

A shallow embedding of `sendMessage` and its helpers from `src/lib/cloud-api.ts`.
The wire text is modelled as `List Char` (the byte-to-text decoding performed by
the streaming `TextDecoder` is below this level of abstraction, so each chunk is
already decoded text).  JSON values are modelled by the inductive `JValue`;
the platform functions `JSON.parse` and `new Date(...).toISOString()` are
environment parameters (`Env.jsonParse`, `Env.dateParse`), since they are not
code of this repository.  A `JSON.parse` failure (`Env.jsonParse _ = none`)
models the thrown `SyntaxError`.  Callbacks are modelled by returning, in
order, the list of callback invocations (`Call`) the loop performs.
-/

set_option autoImplicit false

/-- JSON values, the results of `JSON.parse` on a `data:` payload.
Numbers are modelled as integers (no payload in scope uses fractions). -/
inductive JValue where
  | jnull : JValue
  | jbool : Bool → JValue
  | jnum : Int → JValue
  | jstr : String → JValue
  | jarr : List JValue → JValue
  | jobj : List (String × JValue) → JValue

/-- JavaScript truthiness of a JSON value (`!v` is `!truthy v`). -/
def truthy : JValue → Bool
  | .jnull => false
  | .jbool b => b
  | .jnum n => n != 0
  | .jstr s => s != ""
  | .jarr _ => true
  | .jobj _ => true

/-- Truthiness of a possibly-`undefined` value (`none` models `undefined`). -/
def truthyO : Option JValue → Bool
  | none => false
  | some v => truthy v

/-- First-match association lookup among an object's fields. -/
def jLookup : List (String × JValue) → String → Option JValue
  | [], _ => none
  | (k, v) :: rest, key => if k = key then some v else jLookup rest key

/-- JavaScript property read `v.k` on a receiver an earlier access or guard
in the same branch has already established to be non-null: `undefined`
(`none`) unless an object with that key (non-null primitives are boxed, so
reading a missing property of them is `undefined`, never a throw). -/
def getPropD : JValue → String → Option JValue
  | .jobj fields, k => jLookup fields k
  | _, _ => none

/-- JavaScript plain property read `v.k` on a possibly-null receiver:
on `null` it throws a TypeError (`Except.error`), otherwise it is the
boxed read `getPropD`. -/
def getProp : JValue → String → Except Unit (Option JValue)
  | .jnull, _ => .error ()
  | v, k => .ok (getPropD v k)

/-- Optional chaining `v?.k` on a possibly-undefined value: `undefined` when
`v` is `undefined` or `null` (never throws), otherwise the property. -/
def optChain : Option JValue → String → Option JValue
  | some (.jobj fields), k => jLookup fields k
  | _, _ => none

/-- JavaScript `a || b` for a possibly-`undefined` `a` and a value `b`. -/
def jsOr : Option JValue → JValue → JValue
  | some v, b => if truthy v then v else b
  | none, b => b

/-- JavaScript `o === "s"` for a possibly-`undefined` property value. -/
def isStrEq : Option JValue → String → Bool
  | some (.jstr t), s => t = s
  | _, _ => false

/-- Environment: the platform pieces `sendMessage` relies on.
`jsonParse` models `JSON.parse` (`none` = throws); `dateParse v` models
`new Date(v).toISOString()` guarded by the `isNaN` check (`none` = invalid
date); `nowIso` models `new Date().toISOString()`; `nowMs` models
`Date.now()`. -/
structure Env where
  jsonParse : List Char → Option JValue
  dateParse : JValue → Option String
  nowIso : String
  nowMs : Int

/-- `safeToISOString` from `src/lib/cloud-api.ts` (lines 39-53):
falsy input → now; unparsable date → now; otherwise the ISO string. -/
def safeToISOString (env : Env) (value : Option JValue) : String :=
  match value with
  | none => env.nowIso
  | some v =>
    if truthy v = false then env.nowIso
    else
      match env.dateParse v with
      | none => env.nowIso
      | some iso => iso

/-- A `MessageAttachment` as built by the attachment-extraction loops.
`id` and `contentType` keep whatever JSON value the `||` expressions
produce; `title` is copied through untouched (possibly `undefined`). -/
structure Attachment where
  id : JValue
  url : String
  title : Option JValue
  contentType : JValue

/-- A `Message` as built by `sendMessage` for the `onUserMessage` /
`onComplete` callbacks. -/
structure ChatMsg where
  id : Option JValue
  content : JValue
  role : String
  createdAt : String
  attachments : Option (List Attachment)

/-- One callback invocation performed by the read loop, in order. -/
inductive Call where
  | onStart : Call
  | onUserMessage : ChatMsg → Call
  | onThinking : Call
  | onComplete : ChatMsg → Int → Int → Call
  | onError : JValue → Call

/-- The attachment-extraction loop (lines 350-359 and 380-389):
keep entries whose `url` is a truthy string, defaulting `id` to
`att-${Date.now()}` and `contentType` to `"image"`.  The first read
`att.url` throws a TypeError when the entry is `null`; past that guard the
entry is non-null, so the remaining reads use `getPropD`. -/
def collectAttachments (nowMs : Int) : List JValue → Except Unit (List Attachment)
  | [] => .ok []
  | att :: rest =>
    match getProp att "url" with
    | .error e => .error e
    | .ok (some (.jstr u)) =>
      if u = "" then collectAttachments nowMs rest
      else
        match collectAttachments nowMs rest with
        | .error e => .error e
        | .ok restA =>
          .ok ({ id := jsOr (getPropD att "id") (.jstr ("att-" ++ toString nowMs)),
                 url := u,
                 title := getPropD att "title",
                 contentType := jsOr (getPropD att "contentType") (.jstr "image") }
               :: restA)
    | .ok _ => collectAttachments nowMs rest

/-- Lines 349 and 379, the guarded extraction of a `message` record (with
`data` already known non-null): when `data.content?.attachments` is a
(truthy) array, run the loop; otherwise there are no attachments. -/
def extractAttachments (env : Env) (data : JValue) : Except Unit (List Attachment) :=
  match optChain (getPropD data "content") "attachments" with
  | some (.jarr elems) => collectAttachments env.nowMs elems
  | _ => .ok []

/-- The event dispatch chain (lines 341-406): given the record's parsed
`eventType` and `data`, the callbacks invoked for this record.
The first plain property read on `data` in each branch (`data.type` at
line 345, `data.message` at line 403) throws a TypeError when the payload
is JSON `null`, aborting the read loop; past it `data` is non-null and
the later reads use `getPropD`.  `connected`, `done` and unknown events
never read `data`. -/
def dispatch (env : Env) (eventType : String) (data : JValue) : Except Unit (List Call) :=
  if eventType = "connected" then .ok [Call.onStart]
  else if eventType = "message" then
    match getProp data "type" with
    | .error e => .error e
    | .ok ty =>
      if isStrEq ty "user" then
        match extractAttachments env data with
        | .error e => .error e
        | .ok userAttachments =>
          .ok [Call.onUserMessage
            { id := getPropD data "id",
              content := jsOr (optChain (getPropD data "content") "text") (.jstr ""),
              role := "user",
              createdAt := safeToISOString env (getPropD data "createdAt"),
              attachments :=
                if userAttachments.length > 0 then some userAttachments else none }]
      else if isStrEq ty "thinking" then .ok [Call.onThinking]
      else if truthyO (getPropD data "isAgent") || isStrEq ty "agent" then
        match extractAttachments env data with
        | .error e => .error e
        | .ok attachments =>
          .ok [Call.onComplete
            { id := getPropD data "id",
              content := jsOr (optChain (getPropD data "content") "text") (.jstr ""),
              role := "assistant",
              createdAt := safeToISOString env (getPropD data "createdAt"),
              attachments :=
                if attachments.length > 0 then some attachments else none }
            0 0]
      else .ok []
  else if eventType = "error" then
    match getProp data "message" with
    | .error e => .error e
    | .ok m =>
      .ok [Call.onError
        (jsOr m (jsOr (getPropD data "error") (.jstr "Unknown error")))]
  else .ok []

/-- Whitespace for the JavaScript `trim()` calls: ECMAScript WhiteSpace
(TAB, VT, FF, SP, NBSP, ZWNBSP and the Unicode Zs spaces) together with
the LineTerminator set (LF, CR, LS, PS). -/
def isWS (c : Char) : Bool :=
  c = '\t' || c = '\n' || c = '\x0b' || c = '\x0c' || c = '\r' || c = ' '
    || c = '\u00a0' || c = '\u1680'
    || (('\u2000').toNat ≤ c.toNat && c.toNat ≤ ('\u200a').toNat)
    || c = '\u2028' || c = '\u2029' || c = '\u202f' || c = '\u205f'
    || c = '\u3000' || c = '\ufeff'

/-- `String.prototype.trim`. -/
def jsTrim (s : List Char) : List Char :=
  ((s.dropWhile isWS).reverse.dropWhile isWS).reverse

/-- `message.split("\n")` (line 325): split on every newline, left to right. -/
def jsSplitNL : List Char → List (List Char)
  | [] => [[]]
  | c :: rest =>
    if c = '\n' then [] :: jsSplitNL rest
    else
      match jsSplitNL rest with
      | [] => [[c]]
      | seg :: segs => (c :: seg) :: segs

/-- `buffer.split("\n\n")` (line 319): split on every non-overlapping
occurrence of the blank-line separator, scanning left to right. -/
def jsSplitNN : List Char → List (List Char)
  | [] => [[]]
  | [c] => [[c]]
  | a :: b :: rest =>
    if a = '\n' ∧ b = '\n' then [] :: jsSplitNN rest
    else
      match jsSplitNN (b :: rest) with
      | [] => [[a]]
      | seg :: segs => (a :: seg) :: segs

/-- The per-record line scan (lines 326-335): fold over the record's lines,
the last `event: ` line (trimmed) and the last `data: ` line winning. -/
def scanLines : List (List Char) → List Char × List Char → List Char × List Char
  | [], st => st
  | l :: rest, (et, ed) =>
    if List.isPrefixOf ("event: ").data l then scanLines rest (jsTrim (l.drop 7), ed)
    else if List.isPrefixOf ("data: ").data l then scanLines rest (et, l.drop 6)
    else scanLines rest (et, ed)

/-- Processing of one complete record (loop body, lines 322-407).
`Except.error ()` is an uncaught exception: the `JSON.parse` SyntaxError,
or a TypeError from a property read on `null` inside `dispatch`. -/
def processRecord (env : Env) (record : List Char) : Except Unit (List Call) :=
  if jsTrim record = [] then .ok []
  else
    let st := scanLines (jsSplitNL record) ([], [])
    if st.2 = [] then .ok []
    else
      match env.jsonParse st.2 with
      | none => .error ()
      | some data => dispatch env (String.mk st.1) data

/-- Processing of a batch of complete records: the calls performed, and
whether an exception aborted the batch (calls before the throw stand). -/
def processRecords (env : Env) : List (List Char) → List Call × Bool
  | [] => ([], false)
  | r :: rest =>
    match processRecord env r with
    | .error _ => ([], true)
    | .ok cs =>
      let pr := processRecords env rest
      (cs ++ pr.1, pr.2)

/-- The read loop (lines 312-408): per chunk, append to the buffer, split on
the record separator, keep the last (possibly incomplete) segment as the new
buffer, process the complete records.  Returns the calls in order, the final
buffer (discarded by the source: there is no flush after `done`), and whether
an exception escaped the loop. -/
def readLoop (env : Env) : List Char → List (List Char) → List Call × List Char × Bool
  | buffer, [] => ([], buffer, false)
  | buffer, chunk :: rest =>
    let segs := jsSplitNN (buffer ++ chunk)
    let newBuf := segs.getLastD []
    let pr := processRecords env segs.dropLast
    if pr.2 then (pr.1, newBuf, true)
    else
      let r := readLoop env newBuf rest
      (pr.1 ++ r.1, r.2.1, r.2.2)

/-- The streaming part of `sendMessage`, over a list of decoded chunks:
the callback sequence and whether the promise was rejected mid-stream
by an uncaught exception. -/
def sendMessageStream (env : Env) (chunks : List (List Char)) : List Call × Bool :=
  let r := readLoop env [] chunks
  (r.1, r.2.2)

/-- The observable shape of the initial HTTP response (lines 290-307):
`jsonBody` is the result of `response.json()` (`none` = the body did not
parse, handled by the `.catch`); `body` is the readable stream's decoded
chunks, `none` when `response.body` is null. -/
structure HttpResponse where
  ok : Bool
  status : Int
  jsonBody : Option JValue
  body : Option (List (List Char))

/-- Outcome of a `sendMessage` call: `rejected r` is an explicit
`throw new Error(r)`; `thrown` is an uncaught TypeError escaping the
pre-stream checks (its message comes from the platform, not the program);
`streamed calls aborted` is a stream that was read, `aborted` meaning an
exception escaped the read loop after `calls` had fired. -/
inductive SendResult where
  | rejected : JValue → SendResult
  | thrown : SendResult
  | streamed : List Call → Bool → SendResult

/-- `sendMessage` (lines 283-409): pre-stream status / body checks, then the
read loop.  A rejection before the loop carries no calls (no callback fires).
`error.error` (line 301) is a plain read: a failed response whose body
parsed to JSON `null` makes it throw a TypeError. -/
def sendMessage (env : Env) (resp : HttpResponse) : SendResult :=
  if resp.ok = false then
    let errJson := resp.jsonBody.getD (.jobj [("error", .jstr "Unknown error")])
    match getProp errJson "error" with
    | .error _ => SendResult.thrown
    | .ok e =>
      SendResult.rejected
        (jsOr e (.jstr ("API error: " ++ toString resp.status)))
  else
    match resp.body with
    | none => SendResult.rejected (.jstr "No response body")
    | some chunks =>
      let s := sendMessageStream env chunks
      SendResult.streamed s.1 s.2

/-- Proof view of `jsSplitNN`: the leftmost occurrence of the blank-line
separator, as the text before it and the text after it. -/
def breakNN : List Char → Option (List Char × List Char)
  | [] => none
  | [_] => none
  | a :: b :: rest =>
    if a = '\n' ∧ b = '\n' then some ([], rest)
    else
      match breakNN (b :: rest) with
      | some (pre, post) => some (a :: pre, post)
      | none => none

/-- Modelled from the spec's words (§4.1 step 4, amended for C7): a non-null
attachment entry yields an `Attachment` exactly when its `url` is a
non-empty string; a missing `id` becomes the synthesized `att-<Date.now()>`,
a missing `contentType` becomes `"image"`.  (A null entry is outside this
map: in the code it throws before any entry is kept.) -/
def attachmentSpec (nowMs : Int) (att : JValue) : Option Attachment :=
  match getPropD att "url" with
  | some (.jstr u) =>
    if u = "" then none
    else
      some { id := jsOr (getPropD att "id") (.jstr ("att-" ++ toString nowMs)),
             url := u,
             title := getPropD att "title",
             contentType := jsOr (getPropD att "contentType") (.jstr "image") }
  | _ => none

/-- JSON payload texts used by the concrete test streams. -/
def pEmptyObj : List Char := ("\x7b\x7d").data

def pThinking : List Char := ("\x7b\"type\":\"thinking\"\x7d").data

def pAgent : List Char :=
  ("\x7b\"isAgent\":true,\"id\":\"m1\",\"content\":\x7b\"text\":\"Hello!\"\x7d,\"createdAt\":\"2024-01-01T00:00:00Z\"\x7d").data

def pError : List Char := ("\x7b\"message\":\"insufficient credits\"\x7d").data

def pLate : List Char := ("\x7b\"message\":\"late\"\x7d").data

def pUserAgent : List Char := ("\x7b\"type\":\"user\",\"isAgent\":true\x7d").data

def pUserEmptyUrl : List Char :=
  ("\x7b\"type\":\"user\",\"content\":\x7b\"attachments\":[\x7b\"url\":\"\"\x7d]\x7d\x7d").data

def pMalformed : List Char := ("\x7bnot json").data

/-- The JSON text `null`: valid JSON whose value is JSON null. -/
def pNull : List Char := ("null").data

def pUserAgentNullAtt : List Char :=
  ("\x7b\"type\":\"user\",\"isAgent\":true,\"content\":\x7b\"attachments\":[null]\x7d\x7d").data

/-- The JSON value real `JSON.parse` yields for `pUserAgentNullAtt`. -/
def jUserAgentNullAtt : JValue :=
  .jobj [("type", .jstr "user"), ("isAgent", .jbool true),
    ("content", .jobj [("attachments", .jarr [.jnull])])]

/-- The JSON value real `JSON.parse` yields for `pUserAgent`. -/
def jUserAgent : JValue := .jobj [("type", .jstr "user"), ("isAgent", .jbool true)]

/-- The JSON value real `JSON.parse` yields for `pAgent`. -/
def jAgent : JValue :=
  .jobj [("isAgent", .jbool true), ("id", .jstr "m1"),
    ("content", .jobj [("text", .jstr "Hello!")]),
    ("createdAt", .jstr "2024-01-01T00:00:00Z")]

/-- The JSON value real `JSON.parse` yields for `pUserEmptyUrl`. -/
def jUserEmptyUrl : JValue :=
  .jobj [("type", .jstr "user"),
    ("content", .jobj [("attachments", .jarr [.jobj [("url", .jstr "")]])])]

/-- A concrete `JSON.parse`: the values the real parser produces on the
payloads above, failure (a thrown `SyntaxError`) on anything else. -/
def testParse (s : List Char) : Option JValue :=
  if s = pEmptyObj then some (.jobj [])
  else if s = pThinking then some (.jobj [("type", .jstr "thinking")])
  else if s = pAgent then some jAgent
  else if s = pError then some (.jobj [("message", .jstr "insufficient credits")])
  else if s = pLate then some (.jobj [("message", .jstr "late")])
  else if s = pUserAgent then some jUserAgent
  else if s = pUserEmptyUrl then some jUserEmptyUrl
  else if s = pNull then some .jnull
  else if s = pUserAgentNullAtt then some jUserAgentNullAtt
  else none

/-- A concrete `new Date(v).toISOString()`: defined on the one timestamp the
test streams carry, invalid on anything else (e.g. `"not-a-date"`). -/
def testDateParse (v : JValue) : Option String :=
  match v with
  | .jstr s =>
    if s = "2024-01-01T00:00:00Z" then some "2024-01-01T00:00:00.000Z" else none
  | _ => none

def testEnv : Env :=
  { jsonParse := testParse,
    dateParse := testDateParse,
    nowIso := "2025-06-01T12:00:00.000Z",
    nowMs := 1700000000000 }

/-- Wire text of the four records of the spec's end-to-end scenario (§8.7). -/
def wConnected : List Char := ("event: connected\ndata: \x7b\x7d\n\n").data

def wThinking : List Char := ("event: message\ndata: ").data ++ pThinking ++ ("\n\n").data

def wAgent : List Char := ("event: message\ndata: ").data ++ pAgent ++ ("\n\n").data

def wDone : List Char := ("event: done\ndata: \x7b\x7d\n\n").data

def wireScenario87 : List Char := wConnected ++ wThinking ++ wAgent ++ wDone

/-- A stream whose first record's payload is not valid JSON, followed by a
well-formed `connected` record. -/
def wMalformedFirst : List Char :=
  ("event: message\ndata: ").data ++ pMalformed ++ ("\n\n").data ++ wConnected

/-- A trailing `error` record with no blank-line separator after it. -/
def wErrorPartial : List Char := ("event: error\ndata: ").data ++ pLate

/-- A complete record whose `message` payload has `type:"user"` and
`isAgent:true` at once. -/
def wUserAgentRec : List Char := ("event: message\ndata: ").data ++ pUserAgent ++ ("\n\n").data

/-- A complete `user` record whose single attachment entry has `url:""`. -/
def wUserEmptyUrlRec : List Char :=
  ("event: message\ndata: ").data ++ pUserEmptyUrl ++ ("\n\n").data

theorem breakNN_length (s : List Char) :
    ∀ pre post, breakNN s = some (pre, post) → post.length < s.length := by
  induction s with
  | nil => intro pre post h; simp [breakNN] at h
  | cons a tail ih =>
    intro pre post h
    cases tail with
    | nil => simp [breakNN] at h
    | cons b rest =>
      by_cases hnn : a = '\n' ∧ b = '\n'
      · rw [breakNN, if_pos hnn] at h
        injection h with h1
        injection h1 with h2 h3
        subst h3
        simp only [List.length_cons]
        omega
      · rw [breakNN, if_neg hnn] at h
        cases hb : breakNN (b :: rest) with
        | none => rw [hb] at h; cases h
        | some pp =>
          rw [hb] at h
          cases pp with
          | mk pre2 post2 =>
            simp only [Option.some.injEq, Prod.mk.injEq] at h
            have hlt := ih pre2 post2 hb
            rw [← h.2]
            simp only [List.length_cons] at hlt ⊢
            omega

theorem jsSplitNN_eq_break (s : List Char) :
    jsSplitNN s = (match breakNN s with
      | none => [s]
      | some (pre, post) => pre :: jsSplitNN post) := by
  induction s with
  | nil => rfl
  | cons a tail ih =>
    cases tail with
    | nil => rfl
    | cons b rest =>
      by_cases hnn : a = '\n' ∧ b = '\n'
      · rw [jsSplitNN, if_pos hnn, breakNN, if_pos hnn]
      · rw [jsSplitNN, if_neg hnn, breakNN, if_neg hnn, ih]
        cases hb : breakNN (b :: rest) with
        | none => simp
        | some pp => cases pp with | mk pre post => simp

theorem jsSplitNN_break_none {s : List Char} (h : breakNN s = none) :
    jsSplitNN s = [s] := by
  rw [jsSplitNN_eq_break, h]

theorem jsSplitNN_break_some {s pre post : List Char}
    (h : breakNN s = some (pre, post)) :
    jsSplitNN s = pre :: jsSplitNN post := by
  rw [jsSplitNN_eq_break, h]

theorem jsSplitNN_ne_nil (s : List Char) : jsSplitNN s ≠ [] := by
  rw [jsSplitNN_eq_break]
  cases h : breakNN s with
  | none => simp
  | some pp => cases pp with | mk pre post => simp

theorem breakNN_append {a : List Char} (b : List Char) :
    ∀ pre post, breakNN a = some (pre, post) →
      breakNN (a ++ b) = some (pre, post ++ b) := by
  induction a with
  | nil => intro pre post h; simp [breakNN] at h
  | cons x tail ih =>
    intro pre post h
    cases tail with
    | nil => simp [breakNN] at h
    | cons y rest =>
      by_cases hnn : x = '\n' ∧ y = '\n'
      · rw [breakNN, if_pos hnn] at h
        injection h with h1
        injection h1 with h2 h3
        subst h2
        subst h3
        show breakNN (x :: y :: (rest ++ b)) = some ([], rest ++ b)
        rw [breakNN, if_pos hnn]
      · rw [breakNN, if_neg hnn] at h
        cases hb : breakNN (y :: rest) with
        | none => rw [hb] at h; cases h
        | some pp =>
          rw [hb] at h
          cases pp with
          | mk pre2 post2 =>
            simp only [Option.some.injEq, Prod.mk.injEq] at h
            show breakNN (x :: y :: (rest ++ b)) = _
            rw [breakNN, if_neg hnn]
            have h2 := ih pre2 post2 hb
            rw [show y :: rest ++ b = y :: (rest ++ b) from rfl] at h2
            rw [h2, ← h.1, ← h.2]

theorem getLastD_congr {α : Type} (xs : List α) (d d' : α) (h : xs ≠ []) :
    xs.getLastD d = xs.getLastD d' := by
  cases xs with
  | nil => exact absurd rfl h
  | cons a l => rw [List.getLastD_cons, List.getLastD_cons]

/-- The key algebraic fact behind chunk-boundary independence: splitting
`a ++ b` on the record separator yields the complete segments of `a`
followed by the splitting of `a`'s retained tail joined with `b`. -/
theorem jsSplitNN_append (n : Nat) :
    ∀ (a : List Char), a.length ≤ n → ∀ (b : List Char),
      jsSplitNN (a ++ b) =
        (jsSplitNN a).dropLast ++ jsSplitNN ((jsSplitNN a).getLastD [] ++ b) := by
  induction n with
  | zero =>
    intro a ha b
    have : a = [] := List.length_eq_zero.mp (Nat.le_zero.mp ha)
    subst this
    simp [jsSplitNN]
  | succ n ih =>
    intro a ha b
    cases hb : breakNN a with
    | none =>
      rw [jsSplitNN_break_none hb]
      simp
    | some pp =>
      cases pp with
      | mk pre post =>
        have hlen := breakNN_length a pre post hb
        have hsplit := jsSplitNN_break_some hb
        have hab : breakNN (a ++ b) = some (pre, post ++ b) := breakNN_append b pre post hb
        rw [jsSplitNN_break_some hab, hsplit]
        have hpost := ih post (by omega) b
        rw [hpost]
        have hne := jsSplitNN_ne_nil post
        rw [List.dropLast_cons_of_ne_nil hne]
        rw [List.getLastD_cons, getLastD_congr _ pre [] hne]
        simp

theorem jsSplitNN_append' (a b : List Char) :
    jsSplitNN (a ++ b) =
      (jsSplitNN a).dropLast ++ jsSplitNN ((jsSplitNN a).getLastD [] ++ b) :=
  jsSplitNN_append a.length a (Nat.le_refl _) b

/-- The retained tail of a split contains no record separator. -/
theorem breakNN_getLastD (n : Nat) :
    ∀ (s : List Char), s.length ≤ n →
      breakNN ((jsSplitNN s).getLastD []) = none := by
  induction n with
  | zero =>
    intro s hs
    have : s = [] := List.length_eq_zero.mp (Nat.le_zero.mp hs)
    subst this
    rfl
  | succ n ih =>
    intro s hs
    cases hb : breakNN s with
    | none =>
      rw [jsSplitNN_break_none hb]
      simpa using hb
    | some pp =>
      cases pp with
      | mk pre post =>
        have hlen := breakNN_length s pre post hb
        rw [jsSplitNN_break_some hb, List.getLastD_cons,
          getLastD_congr _ pre [] (jsSplitNN_ne_nil post)]
        exact ih post (by omega)

theorem breakNN_getLastD' (s : List Char) :
    breakNN ((jsSplitNN s).getLastD []) = none :=
  breakNN_getLastD s.length s (Nat.le_refl _)

theorem processRecords_append (env : Env) (rs ss : List (List Char)) :
    processRecords env (rs ++ ss) =
      (if (processRecords env rs).2 then processRecords env rs
       else ((processRecords env rs).1 ++ (processRecords env ss).1,
             (processRecords env ss).2)) := by
  induction rs with
  | nil => simp [processRecords]
  | cons r rest ih =>
    simp only [List.cons_append, processRecords]
    cases hr : processRecord env r with
    | error e => simp
    | ok cs =>
      simp only [List.append_eq]
      rw [ih]
      by_cases h2 : (processRecords env rest).2
      · simp [h2]
      · simp [h2, List.append_assoc]

/-- The read loop, on a buffer that holds no separator, performs exactly the
calls of the complete records of the concatenated input, and aborts exactly
when one of those records aborts. -/
theorem readLoop_eq_single (env : Env) :
    ∀ (chunks : List (List Char)) (buffer : List Char),
      breakNN buffer = none →
      (readLoop env buffer chunks).1 =
        (processRecords env ((jsSplitNN (buffer ++ chunks.flatten)).dropLast)).1 ∧
      (readLoop env buffer chunks).2.2 =
        (processRecords env ((jsSplitNN (buffer ++ chunks.flatten)).dropLast)).2 := by
  intro chunks
  induction chunks with
  | nil =>
    intro buffer hbuf
    rw [List.flatten_nil, List.append_nil, jsSplitNN_break_none hbuf]
    simp [readLoop, processRecords]
  | cons c rest ih =>
    intro buffer hbuf
    have hjoin : buffer ++ (c :: rest).flatten = (buffer ++ c) ++ rest.flatten := by
      rw [List.flatten_cons, List.append_assoc]
    rw [hjoin, jsSplitNN_append' (buffer ++ c) rest.flatten]
    have hne := jsSplitNN_ne_nil ((jsSplitNN (buffer ++ c)).getLastD [] ++ rest.flatten)
    rw [List.dropLast_append_of_ne_nil _ hne]
    rw [processRecords_append]
    have hrec := ih ((jsSplitNN (buffer ++ c)).getLastD [])
      (breakNN_getLastD' (buffer ++ c))
    rw [readLoop]
    by_cases hab : (processRecords env (jsSplitNN (buffer ++ c)).dropLast).2
    · simp [hab]
    · have h1 := hrec.1
      have h2 := hrec.2
      simp only [List.getLastD_eq_getLast?] at h1 h2
      simp [hab, h1, h2]

theorem jsTrim_nil_ws {r : List Char} (h : jsTrim r = []) :
    ∀ c ∈ r, isWS c = true := by
  intro c hc
  have h1 : (r.dropWhile isWS).reverse.dropWhile isWS = [] := by
    have := congrArg List.reverse h
    simpa [jsTrim] using this
  have h2 : ∀ x ∈ (r.dropWhile isWS).reverse, isWS x = true :=
    List.dropWhile_eq_nil_iff.mp h1
  have h3 : ∀ x ∈ r.dropWhile isWS, isWS x = true := by
    intro x hx
    exact h2 x (List.mem_reverse.mpr hx)
  have h4 : r = r.takeWhile isWS ++ r.dropWhile isWS := by
    rw [List.takeWhile_append_dropWhile]
  rw [h4] at hc
  rcases List.mem_append.mp hc with hc1 | hc2
  · exact List.mem_takeWhile_imp hc1
  · exact h3 c hc2

theorem head_mem_of_isPrefixOf {c : Char} {p l : List Char}
    (h : List.isPrefixOf (c :: p) l = true) : c ∈ l := by
  cases l with
  | nil => simp [List.isPrefixOf] at h
  | cons x t =>
    simp only [List.isPrefixOf, Bool.and_eq_true, beq_iff_eq] at h
    rw [h.1]
    exact List.mem_cons_self x t

theorem scanLines_ws (lines : List (List Char))
    (h : ∀ l ∈ lines, ∀ c ∈ l, isWS c = true) :
    ∀ st, scanLines lines st = st := by
  induction lines with
  | nil => intro st; rfl
  | cons l rest ih =>
    intro st
    have hl := h l (List.mem_cons_self l rest)
    have hrest : ∀ l2 ∈ rest, ∀ c ∈ l2, isWS c = true :=
      fun l2 hm => h l2 (List.mem_cons_of_mem l hm)
    have he : List.isPrefixOf ("event: ").data l = false := by
      by_contra hcon
      have : List.isPrefixOf ("event: ").data l = true := by
        cases hb : List.isPrefixOf ("event: ").data l
        · exact absurd hb hcon
        · rfl
      have hmem : 'e' ∈ l := head_mem_of_isPrefixOf this
      have := hl 'e' hmem
      simp [isWS] at this
    have hd : List.isPrefixOf ("data: ").data l = false := by
      by_contra hcon
      have : List.isPrefixOf ("data: ").data l = true := by
        cases hb : List.isPrefixOf ("data: ").data l
        · exact absurd hb hcon
        · rfl
      have hmem : 'd' ∈ l := head_mem_of_isPrefixOf this
      have := hl 'd' hmem
      simp [isWS] at this
    cases st with
    | mk et ed =>
      rw [scanLines, he, hd]
      simp only [Bool.false_eq_true, if_false]
      exact ih hrest (et, ed)

theorem jsSplitNL_ne_nil (s : List Char) : jsSplitNL s ≠ [] := by
  induction s with
  | nil => simp [jsSplitNL]
  | cons c rest ih =>
    rw [jsSplitNL]
    by_cases hc : c = '\n'
    · simp [hc]
    · rw [if_neg hc]
      cases hsp : jsSplitNL rest with
      | nil => exact absurd hsp ih
      | cons seg segs => simp

theorem mem_of_mem_jsSplitNL {r l : List Char}
    (hl : l ∈ jsSplitNL r) {c : Char} (hc : c ∈ l) : c ∈ r := by
  induction r generalizing l with
  | nil =>
    simp [jsSplitNL] at hl
    subst hl
    cases hc
  | cons x rest ih =>
    rw [jsSplitNL] at hl
    by_cases hx : x = '\n'
    · rw [if_pos hx] at hl
      rcases List.mem_cons.mp hl with h1 | h2
      · subst h1; cases hc
      · exact List.mem_cons_of_mem x (ih h2 hc)
    · rw [if_neg hx] at hl
      cases hsp : jsSplitNL rest with
      | nil => exact absurd hsp (jsSplitNL_ne_nil rest)
      | cons seg segs =>
        rw [hsp] at hl
        rcases List.mem_cons.mp hl with h1 | h2
        · subst h1
          rcases List.mem_cons.mp hc with hcx | hcs
          · subst hcx; exact List.mem_cons_self c rest
          · have hseg : seg ∈ jsSplitNL rest := by rw [hsp]; exact List.mem_cons_self seg segs
            exact List.mem_cons_of_mem x (ih hseg hcs)
        · have hmem : l ∈ jsSplitNL rest := by rw [hsp]; exact List.mem_cons_of_mem seg h2
          exact List.mem_cons_of_mem x (ih hmem hc)

/-- If the line scan found a `data: ` payload, the record is not
whitespace-only, so `processRecord` reduces to the `JSON.parse` step. -/
theorem processRecord_eq (env : Env) (r : List Char)
    (hne : (scanLines (jsSplitNL r) ([], [])).2 ≠ []) :
    processRecord env r =
      (match env.jsonParse (scanLines (jsSplitNL r) ([], [])).2 with
       | none => .error ()
       | some data =>
         dispatch env (String.mk (scanLines (jsSplitNL r) ([], [])).1) data) := by
  have htrim : ¬(jsTrim r = []) := by
    intro h0
    have hws := jsTrim_nil_ws h0
    have hall : ∀ l ∈ jsSplitNL r, ∀ c ∈ l, isWS c = true :=
      fun l hl c hc => hws c (mem_of_mem_jsSplitNL hl hc)
    rw [scanLines_ws (jsSplitNL r) hall ([], [])] at hne
    exact hne rfl
  rw [processRecord, if_neg htrim]
  rw [if_neg hne]

/-- `processRecord` when the scan found a payload and `JSON.parse` accepted it. -/
theorem processRecord_some (env : Env) (r : List Char) (data : JValue)
    (hed : (scanLines (jsSplitNL r) ([], [])).2 ≠ [])
    (hparse : env.jsonParse (scanLines (jsSplitNL r) ([], [])).2 = some data) :
    processRecord env r =
      dispatch env (String.mk (scanLines (jsSplitNL r) ([], [])).1) data := by
  rw [processRecord_eq env r hed, hparse]

/-- `processRecord` when the scan found a payload and `JSON.parse` threw. -/
theorem processRecord_none (env : Env) (r : List Char)
    (hed : (scanLines (jsSplitNL r) ([], [])).2 ≠ [])
    (hparse : env.jsonParse (scanLines (jsSplitNL r) ([], [])).2 = none) :
    processRecord env r = .error () := by
  rw [processRecord_eq env r hed, hparse]

theorem isStrEq_ne {o : Option JValue} {a b : String}
    (h : isStrEq o a = true) (hne : a ≠ b) : isStrEq o b = false := by
  cases o with
  | none => simp [isStrEq] at h
  | some v =>
    cases v with
    | jstr t =>
      simp only [isStrEq, decide_eq_true_eq] at h
      subst h
      simp [isStrEq, hne]
    | jnull => simp [isStrEq] at h
    | jbool x => simp [isStrEq] at h
    | jnum x => simp [isStrEq] at h
    | jarr x => simp [isStrEq] at h
    | jobj x => simp [isStrEq] at h

/-- A plain property read on a non-null value never throws. -/
theorem getProp_ne_null {v : JValue} (h : v ≠ JValue.jnull) (k : String) :
    getProp v k = .ok (getPropD v k) := by
  cases v with
  | jnull => exact absurd rfl h
  | jbool b => rfl
  | jnum n => rfl
  | jstr s => rfl
  | jarr a => rfl
  | jobj o => rfl

/-- On a list of non-null entries the extraction loop does not throw and
keeps exactly the entries of the spec-side per-entry map. -/
theorem collectAttachments_ok (nowMs : Int) (elems : List JValue)
    (hnn : ∀ a ∈ elems, a ≠ JValue.jnull) :
    collectAttachments nowMs elems = .ok (elems.filterMap (attachmentSpec nowMs)) := by
  induction elems with
  | nil => rfl
  | cons att rest ih =>
    have hatt : att ≠ JValue.jnull := hnn att (List.mem_cons_self att rest)
    have hrest : ∀ a ∈ rest, a ≠ JValue.jnull :=
      fun a ha => hnn a (List.mem_cons_of_mem att ha)
    have hrec := ih hrest
    cases hurl : getPropD att "url" with
    | none =>
      simp [collectAttachments, attachmentSpec, List.filterMap_cons,
        getProp_ne_null hatt, hurl, hrec]
    | some v =>
      cases v with
      | jstr u =>
        by_cases hu : u = ""
        · simp [collectAttachments, attachmentSpec, List.filterMap_cons,
            getProp_ne_null hatt, hurl, hu, hrec]
        · simp [collectAttachments, attachmentSpec, List.filterMap_cons,
            getProp_ne_null hatt, hurl, hu, hrec]
      | jnull =>
        simp [collectAttachments, attachmentSpec, List.filterMap_cons,
          getProp_ne_null hatt, hurl, hrec]
      | jbool b =>
        simp [collectAttachments, attachmentSpec, List.filterMap_cons,
          getProp_ne_null hatt, hurl, hrec]
      | jnum n =>
        simp [collectAttachments, attachmentSpec, List.filterMap_cons,
          getProp_ne_null hatt, hurl, hrec]
      | jarr a =>
        simp [collectAttachments, attachmentSpec, List.filterMap_cons,
          getProp_ne_null hatt, hurl, hrec]
      | jobj o =>
        simp [collectAttachments, attachmentSpec, List.filterMap_cons,
          getProp_ne_null hatt, hurl, hrec]

/-- A null entry anywhere in the array makes the extraction loop throw. -/
theorem collectAttachments_error (nowMs : Int) (elems : List JValue)
    (hmem : JValue.jnull ∈ elems) :
    collectAttachments nowMs elems = .error () := by
  induction elems with
  | nil => cases hmem
  | cons att rest ih =>
    by_cases hatt : att = JValue.jnull
    · subst hatt
      simp [collectAttachments, getProp]
    · have h2 : JValue.jnull ∈ rest := by
        rcases List.mem_cons.mp hmem with h1 | h2
        · exact absurd h1.symm hatt
        · exact h2
      have hrec := ih h2
      cases hurl : getPropD att "url" with
      | none => simp [collectAttachments, getProp_ne_null hatt, hurl, hrec]
      | some v =>
        cases v with
        | jstr u =>
          by_cases hu : u = ""
          · simp [collectAttachments, getProp_ne_null hatt, hurl, hu, hrec]
          · simp [collectAttachments, getProp_ne_null hatt, hurl, hu, hrec]
        | jnull => simp [collectAttachments, getProp_ne_null hatt, hurl, hrec]
        | jbool b => simp [collectAttachments, getProp_ne_null hatt, hurl, hrec]
        | jnum n => simp [collectAttachments, getProp_ne_null hatt, hurl, hrec]
        | jarr a => simp [collectAttachments, getProp_ne_null hatt, hurl, hrec]
        | jobj o => simp [collectAttachments, getProp_ne_null hatt, hurl, hrec]

theorem extractAttachments_arr (env : Env) (data : JValue) (es : List JValue)
    (hatt : optChain (getPropD data "content") "attachments" = some (.jarr es)) :
    extractAttachments env data = collectAttachments env.nowMs es := by
  simp only [extractAttachments, hatt]

theorem dispatch_error_ok (env : Env) (data : JValue) (m : Option JValue)
    (hm : getProp data "message" = .ok m) :
    dispatch env "error" data =
      .ok [Call.onError
        (jsOr m (jsOr (getPropD data "error") (.jstr "Unknown error")))] := by
  rw [dispatch, if_neg (by decide : ¬("error" : String) = "connected"),
    if_neg (by decide : ¬("error" : String) = "message"), if_pos rfl]
  simp only [hm]

theorem dispatch_error_null (env : Env)
    (hm : getProp JValue.jnull "message" = .error ()) :
    dispatch env "error" JValue.jnull = .error () := by
  rw [dispatch, if_neg (by decide : ¬("error" : String) = "connected"),
    if_neg (by decide : ¬("error" : String) = "message"), if_pos rfl]
  simp only [hm]

theorem dispatch_message_user_ok (env : Env) (data : JValue) (ty : Option JValue)
    (uatts : List Attachment)
    (hty : getProp data "type" = .ok ty)
    (hu : isStrEq ty "user" = true)
    (hatts : extractAttachments env data = .ok uatts) :
    dispatch env "message" data =
      .ok [Call.onUserMessage
        { id := getPropD data "id",
          content := jsOr (optChain (getPropD data "content") "text") (.jstr ""),
          role := "user",
          createdAt := safeToISOString env (getPropD data "createdAt"),
          attachments := if uatts.length > 0 then some uatts else none }] := by
  rw [dispatch, if_neg (by decide : ¬("message" : String) = "connected"), if_pos rfl]
  simp only [hty]
  rw [hu, if_pos rfl]
  simp only [hatts]

theorem dispatch_message_user_cases (env : Env) (data : JValue) (ty : Option JValue)
    (hty : getProp data "type" = .ok ty)
    (hu : isStrEq ty "user" = true) :
    (∃ m, dispatch env "message" data = .ok [Call.onUserMessage m]) ∨
      dispatch env "message" data = .error () := by
  cases hatts : extractAttachments env data with
  | error e =>
    right
    cases e
    rw [dispatch, if_neg (by decide : ¬("message" : String) = "connected"), if_pos rfl]
    simp only [hty]
    rw [hu, if_pos rfl]
    simp only [hatts]
  | ok l =>
    left
    exact ⟨_, dispatch_message_user_ok env data ty l hty hu hatts⟩

theorem dispatch_message_thinking_ok (env : Env) (data : JValue) (ty : Option JValue)
    (hty : getProp data "type" = .ok ty)
    (hu : isStrEq ty "user" = false)
    (hth : isStrEq ty "thinking" = true) :
    dispatch env "message" data = .ok [Call.onThinking] := by
  rw [dispatch, if_neg (by decide : ¬("message" : String) = "connected"), if_pos rfl]
  simp only [hty]
  rw [hu, if_neg Bool.false_ne_true, hth, if_pos rfl]

theorem dispatch_message_agent_ok (env : Env) (data : JValue) (ty : Option JValue)
    (atts : List Attachment)
    (hty : getProp data "type" = .ok ty)
    (hu : isStrEq ty "user" = false)
    (hth : isStrEq ty "thinking" = false)
    (hor : (truthyO (getPropD data "isAgent") || isStrEq ty "agent") = true)
    (hatts : extractAttachments env data = .ok atts) :
    ∃ m, dispatch env "message" data = .ok [Call.onComplete m 0 0] ∧
      m.role = "assistant" := by
  rw [dispatch, if_neg (by decide : ¬("message" : String) = "connected"), if_pos rfl]
  simp only [hty]
  rw [hu, if_neg Bool.false_ne_true, hth, if_neg Bool.false_ne_true, hor, if_pos rfl]
  simp only [hatts]
  exact ⟨_, rfl, rfl⟩

theorem dispatch_message_ignored (env : Env) (data : JValue) (ty : Option JValue)
    (hty : getProp data "type" = .ok ty)
    (hu : isStrEq ty "user" = false)
    (hth : isStrEq ty "thinking" = false)
    (hia : truthyO (getPropD data "isAgent") = false)
    (hag : isStrEq ty "agent" = false) :
    dispatch env "message" data = .ok [] := by
  rw [dispatch, if_neg (by decide : ¬("message" : String) = "connected"), if_pos rfl]
  simp only [hty]
  rw [hu, if_neg Bool.false_ne_true, hth, if_neg Bool.false_ne_true, hia, hag]
  rfl

theorem dispatch_unknown (env : Env) (data : JValue) (et : String)
    (h1 : ¬(et = "connected")) (h2 : ¬(et = "message")) (h3 : ¬(et = "error")) :
    dispatch env et data = .ok [] := by
  rw [dispatch, if_neg h1, if_neg h2, if_neg h3]

/-- Claim C1 (the spec is the intent, the code is the slip): on a stream whose
first record carries a payload that is not valid JSON, the unguarded
`JSON.parse` at `cloud-api.ts:339` throws and the exception escapes
`sendMessage`: no callback fires for the malformed record (as the claim says)
but the well-formed `connected` record after it is never processed either
(aborted = true), while that record alone would have fired `onStart`. -/
theorem c1_malformed_json_aborts :
    sendMessageStream testEnv [wMalformedFirst] = ([], true) ∧
    testEnv.jsonParse pMalformed = none ∧
    sendMessageStream testEnv [wConnected] = ([Call.onStart], false) :=
  ⟨rfl, rfl, rfl⟩

/-- Claim C2 counterexample: a stream that ends right after a complete
`connected` record with a trailing `event: error` record lacking the
blank-line separator.  The claim's flush would dispatch `onError ("late")`;
the code dispatches only `onStart`: the partial record's payload would have
parsed, and the record would have produced an `onError` call, but `sendMessage`
discards the remaining buffer when the reader reports end-of-stream. -/
theorem c2_counterexample :
    sendMessageStream testEnv [wConnected ++ wErrorPartial] = ([Call.onStart], false) ∧
    testEnv.jsonParse pLate = some (.jobj [("message", .jstr "late")]) ∧
    dispatch testEnv "error" (.jobj [("message", .jstr "late")]) =
      .ok [Call.onError (.jstr "late")] :=
  ⟨rfl, rfl, rfl⟩

/-- Claim C2 (amended): `sendMessage` performs no flush after end-of-stream:
appending to the stream a final chunk that leaves the retained buffer without
any blank-line separator (a trailing partial record, whatever its payload)
changes neither the dispatched callbacks nor the abort status. -/
theorem c2_no_flush (env : Env) (chunks : List (List Char)) (t : List Char)
    (h : breakNN ((jsSplitNN chunks.flatten).getLastD [] ++ t) = none) :
    sendMessageStream env (chunks ++ [t]) = sendMessageStream env chunks := by
  have hnil : breakNN ([] : List Char) = none := rfl
  have h1 := readLoop_eq_single env (chunks ++ [t]) [] hnil
  have h2 := readLoop_eq_single env chunks [] hnil
  simp only [List.nil_append] at h1 h2
  have hflat : (chunks ++ [t]).flatten = chunks.flatten ++ t := by simp
  rw [hflat] at h1
  have hsp := jsSplitNN_append' chunks.flatten t
  rw [jsSplitNN_break_none h] at hsp
  have hrecords : (jsSplitNN (chunks.flatten ++ t)).dropLast =
      (jsSplitNN chunks.flatten).dropLast := by
    rw [hsp]
    simp
  rw [hrecords] at h1
  simp only [sendMessageStream]
  rw [h1.1, h1.2, ← h2.1, ← h2.2]

/-- Claim C2 amended-theorem witness: with a trailing partial `error` record
the callbacks equal those of the stream without it. -/
theorem c2_no_flush_witness :
    breakNN ((jsSplitNN ([wConnected] : List (List Char)).flatten).getLastD [] ++ wErrorPartial) = none ∧
    sendMessageStream testEnv ([wConnected] ++ [wErrorPartial]) =
      sendMessageStream testEnv [wConnected] :=
  ⟨rfl, c2_no_flush testEnv [wConnected] wErrorPartial rfl⟩

/-- Claim C3: chunk-boundary independence.  For every environment and every
way of splitting wire input into chunks fed sequentially to the read loop, the
dispatched callback sequence (and the abort status) is identical to feeding
the concatenation as a single chunk, including boundaries falling mid-line or
mid-record.  (Mid-multibyte-character boundaries are below this model: the
source's stream-mode `TextDecoder` hands the loop already-decoded text.) -/
theorem c3_chunk_boundary_independence (env : Env) (chunks : List (List Char)) :
    sendMessageStream env chunks = sendMessageStream env [chunks.flatten] := by
  have hnil : breakNN ([] : List Char) = none := rfl
  have h1 := readLoop_eq_single env chunks [] hnil
  have h2 := readLoop_eq_single env [chunks.flatten] [] hnil
  simp only [List.nil_append] at h1 h2
  have hfl : ([chunks.flatten] : List (List Char)).flatten = chunks.flatten := by simp
  rw [hfl] at h2
  simp only [sendMessageStream]
  rw [h1.1, h1.2, ← h2.1, ← h2.2]

/-- Claim C4 counterexample: a failed response whose body is not JSON.  The
claim requires the generic "API error: <status>" message then, but the
`.catch(() => ({ error: "Unknown error" }))` fallback makes `sendMessage`
reject with "Unknown error" instead. -/
theorem c4_counterexample :
    sendMessage testEnv
      { ok := false, status := 500, jsonBody := none, body := none } =
      SendResult.rejected (.jstr "Unknown error") ∧
    ("Unknown error" : String) ≠ "API error: 500" :=
  ⟨rfl, by decide⟩

/-- Claim C4 (amended): when the initial response is not OK, `sendMessage`
rejects before any callback: with the body's non-empty string `error` field
when the body parsed to a JSON value carrying one; with "API error: <status>"
when the body parsed to a non-null JSON value with no `error` property; with
"Unknown error" when the body did not parse as JSON; and with an uncaught
TypeError (no program-chosen message) when the body parsed to JSON `null`,
since `error.error` is a plain read.  When the response is OK but has no
readable body it rejects with "No response body". -/
theorem c4_prestream (env : Env) (resp : HttpResponse) :
    (resp.ok = false → ∀ e s, resp.jsonBody = some e →
      getProp e "error" = .ok (some (.jstr s)) → s ≠ "" →
      sendMessage env resp = SendResult.rejected (.jstr s)) ∧
    (resp.ok = false → ∀ e, resp.jsonBody = some e → getProp e "error" = .ok none →
      sendMessage env resp =
        SendResult.rejected (.jstr ("API error: " ++ toString resp.status))) ∧
    (resp.ok = false → resp.jsonBody = some JValue.jnull →
      sendMessage env resp = SendResult.thrown) ∧
    (resp.ok = false → resp.jsonBody = none →
      sendMessage env resp = SendResult.rejected (.jstr "Unknown error")) ∧
    (resp.ok = true → resp.body = none →
      sendMessage env resp = SendResult.rejected (.jstr "No response body")) := by
  refine ⟨?_, ?_, ?_, ?_, ?_⟩
  · intro hok e s hbody herr hs
    rw [sendMessage, if_pos hok, hbody]
    simp only [Option.getD_some, herr]
    have ht : truthy (.jstr s) = true := by simp [truthy, hs]
    simp [jsOr, ht]
  · intro hok e hbody herr
    rw [sendMessage, if_pos hok, hbody]
    simp only [Option.getD_some, herr]
    rfl
  · intro hok hbody
    rw [sendMessage, if_pos hok, hbody]
    rfl
  · intro hok hbody
    rw [sendMessage, if_pos hok, hbody]
    rfl
  · intro hok hbody
    have hok2 : ¬(resp.ok = false) := by rw [hok]; simp
    rw [sendMessage, if_neg hok2, hbody]

/-- Claim C4 amended-theorem witness: the §8.8 scenario (402 with an
`error` body) and the bodyless-response case, at concrete inputs. -/
theorem c4_prestream_witness :
    sendMessage testEnv
      { ok := false, status := 402,
        jsonBody := some (.jobj [("error", .jstr "Insufficient credits")]),
        body := none } =
      SendResult.rejected (.jstr "Insufficient credits") ∧
    sendMessage testEnv
      { ok := true, status := 200, jsonBody := none, body := none } =
      SendResult.rejected (.jstr "No response body") :=
  ⟨(c4_prestream testEnv
      { ok := false, status := 402,
        jsonBody := some (.jobj [("error", .jstr "Insufficient credits")]),
        body := none }).1 rfl
      (.jobj [("error", .jstr "Insufficient credits")]) "Insufficient credits"
      rfl rfl (by decide),
   (c4_prestream testEnv
      { ok := true, status := 200, jsonBody := none, body := none }).2.2.2.2 rfl rfl⟩

/-- Claim C5 counterexample: an `event: error` record whose `data:` payload
is the valid JSON text `null`.  `data.message` (cloud-api.ts:403) is a plain
read on null, so it throws a TypeError: no `onError` fires, the record IS
fatal, and the well-formed `connected` record after it is never processed. -/
theorem c5_counterexample :
    processRecord testEnv (("event: error\ndata: ").data ++ pNull) = .error () ∧
    testEnv.jsonParse pNull = some JValue.jnull ∧
    processRecords testEnv
        [("event: error\ndata: ").data ++ pNull,
         ("event: connected\ndata: \x7b\x7d").data] = ([], true) :=
  ⟨rfl, rfl, rfl⟩

/-- Claim C5 (amended): for every record with `event: error` whose payload is
not JSON null (so `data.message` is readable), `sendMessage` invokes `onError`
exactly once with `payload.message || payload.error || "Unknown error"`,
without throwing, and the loop goes on to process the records after it
unchanged.  (A null payload instead throws a TypeError at `data.message` and
rejects `sendMessage` — see the counterexample.) -/
theorem c5_error_event (env : Env) (r : List Char) (data : JValue)
    (m : Option JValue) (rest : List (List Char))
    (het : String.mk (scanLines (jsSplitNL r) ([], [])).1 = "error")
    (hed : (scanLines (jsSplitNL r) ([], [])).2 ≠ [])
    (hparse : env.jsonParse (scanLines (jsSplitNL r) ([], [])).2 = some data)
    (hm : getProp data "message" = .ok m) :
    processRecord env r =
      .ok [Call.onError
        (jsOr m (jsOr (getPropD data "error") (.jstr "Unknown error")))] ∧
    processRecords env (r :: rest) =
      (Call.onError (jsOr m (jsOr (getPropD data "error") (.jstr "Unknown error")))
        :: (processRecords env rest).1,
       (processRecords env rest).2) := by
  have h1 := processRecord_some env r data hed hparse
  rw [het, dispatch_error_ok env data m hm] at h1
  refine ⟨h1, ?_⟩
  rw [processRecords, h1]
  simp

/-- Claim C5 amended-theorem witness: the spec's `insufficient credits`
error record. -/
theorem c5_error_event_witness :
    processRecord testEnv (("event: error\ndata: ").data ++ pError) =
      .ok [Call.onError (.jstr "insufficient credits")] :=
  (c5_error_event testEnv (("event: error\ndata: ").data ++ pError)
    (.jobj [("message", .jstr "insufficient credits")])
    (some (.jstr "insufficient credits")) []
    rfl (by decide) rfl rfl).1

/-- Claim C6 counterexample: a `message` payload carrying both `type:"user"`
and `isAgent:true`.  Although `isAgent == true`, the record dispatches
`onUserMessage` with role `"user"` and no `onComplete`: the `user` branch is
tested first (this is exactly C10). -/
theorem c6_counterexample :
    sendMessageStream testEnv [wUserAgentRec] =
      ([Call.onUserMessage
        { id := none, content := .jstr "", role := "user",
          createdAt := testEnv.nowIso, attachments := none }], false) ∧
    truthyO (getPropD jUserAgent "isAgent") = true ∧
    testEnv.jsonParse pUserAgent = some jUserAgent :=
  ⟨rfl, rfl, rfl⟩

/-- Claim C6 (amended): for every `message` record whose payload's `type` is
neither `"user"` nor `"thinking"`, that has `isAgent` truthy or
`type == "agent"`, and whose attachment extraction does not throw (in
particular, no null entry in `content.attachments`), the record dispatches
exactly one `onComplete` whose message has role `"assistant"` and whose usage
is always `(0, 0)`; and on the spec's §8.7 stream the exact callback sequence
is `onStart`, `onThinking`, `onComplete` with the assistant message (id `m1`,
content `Hello!`, the normalized timestamp, no attachments) and usage
`(0, 0)` — no `onChunk`-like or `onError` call exists in the sequence. -/
theorem c6_agent_complete (env : Env) (r : List Char) (data : JValue)
    (ty : Option JValue) (atts : List Attachment)
    (het : String.mk (scanLines (jsSplitNL r) ([], [])).1 = "message")
    (hed : (scanLines (jsSplitNL r) ([], [])).2 ≠ [])
    (hparse : env.jsonParse (scanLines (jsSplitNL r) ([], [])).2 = some data)
    (hty : getProp data "type" = .ok ty)
    (hu : isStrEq ty "user" = false)
    (hth : isStrEq ty "thinking" = false)
    (hag : truthyO (getPropD data "isAgent") = true ∨ isStrEq ty "agent" = true)
    (hatts : extractAttachments env data = .ok atts) :
    (∃ m, processRecord env r = .ok [Call.onComplete m 0 0] ∧
      m.role = "assistant") ∧
    sendMessageStream testEnv [wireScenario87] =
      ([Call.onStart, Call.onThinking,
        Call.onComplete
          { id := some (.jstr "m1"), content := .jstr "Hello!",
            role := "assistant", createdAt := "2024-01-01T00:00:00.000Z",
            attachments := none } 0 0],
       false) := by
  constructor
  · have h1 := processRecord_some env r data hed hparse
    rw [het] at h1
    have hor : (truthyO (getPropD data "isAgent") || isStrEq ty "agent") = true := by
      rcases hag with h | h <;> simp [h]
    obtain ⟨m, hm, hrole⟩ :=
      dispatch_message_agent_ok env data ty atts hty hu hth hor hatts
    exact ⟨m, by rw [h1, hm], hrole⟩
  · rfl

/-- Claim C6 amended-theorem witness: the §8.7 agent record alone. -/
theorem c6_agent_complete_witness :
    ∃ m, processRecord testEnv (("event: message\ndata: ").data ++ pAgent) =
      .ok [Call.onComplete m 0 0] ∧ m.role = "assistant" :=
  (c6_agent_complete testEnv (("event: message\ndata: ").data ++ pAgent) jAgent
    none [] rfl (by decide) rfl rfl rfl rfl (Or.inl rfl) rfl).1

/-- Claim C7 counterexample: a `user` record whose single attachment entry is
`("url": "")`.  The entry has a string `url` field, so the claim requires one
resulting Attachment, but JavaScript truthiness (`att.url && typeof att.url
=== "string"`) drops the empty string: the message carries no attachments. -/
theorem c7_counterexample :
    sendMessageStream testEnv [wUserEmptyUrlRec] =
      ([Call.onUserMessage
        { id := none, content := .jstr "", role := "user",
          createdAt := testEnv.nowIso, attachments := none }], false) ∧
    getPropD (.jobj [("url", .jstr "")]) "url" = some (.jstr "") :=
  ⟨rfl, rfl⟩

/-- Claim C7 (amended): for an attachments array with no null entry, exactly
the entries whose `url` is a non-empty string become Attachment values, in
order (the loop equals `filterMap attachmentSpec` and does not throw); a null
entry anywhere makes the loop throw a TypeError at `att.url` instead, so no
message is dispatched at all; a `user` record's message carries exactly the
extracted values (`undefined` when there are none); and an entry with only a
non-empty `url` yields exactly one Attachment whose synthesized id
`att-<Date.now()>` is non-empty and whose contentType defaults to `"image"`. -/
theorem c7_attachment_extraction (nowMs : Int) (elems : List JValue)
    (u : String) (hu : u ≠ "") :
    ((∀ a ∈ elems, a ≠ JValue.jnull) →
      collectAttachments nowMs elems = .ok (elems.filterMap (attachmentSpec nowMs))) ∧
    (JValue.jnull ∈ elems → collectAttachments nowMs elems = .error ()) ∧
    (∀ (env : Env) (data : JValue) (ty : Option JValue) (es : List JValue),
      getProp data "type" = .ok ty →
      isStrEq ty "user" = true →
      optChain (getPropD data "content") "attachments" = some (.jarr es) →
      (∀ a ∈ es, a ≠ JValue.jnull) →
      dispatch env "message" data =
        .ok [Call.onUserMessage
          { id := getPropD data "id",
            content := jsOr (optChain (getPropD data "content") "text") (.jstr ""),
            role := "user",
            createdAt := safeToISOString env (getPropD data "createdAt"),
            attachments :=
              if (es.filterMap (attachmentSpec env.nowMs)).length > 0
              then some (es.filterMap (attachmentSpec env.nowMs)) else none }]) ∧
    collectAttachments nowMs [.jobj [("url", .jstr u)]] =
      .ok [{ id := .jstr ("att-" ++ toString nowMs), url := u, title := none,
             contentType := .jstr "image" }] ∧
    ("att-" ++ toString nowMs) ≠ "" := by
  refine ⟨collectAttachments_ok nowMs elems, collectAttachments_error nowMs elems,
    ?_, ?_, ?_⟩
  · intro env data ty es hty htyU hatt hnn
    have hext : extractAttachments env data =
        .ok (es.filterMap (attachmentSpec env.nowMs)) := by
      rw [extractAttachments_arr env data es hatt,
        collectAttachments_ok env.nowMs es hnn]
    exact dispatch_message_user_ok env data ty _ hty htyU hext
  · simp [collectAttachments, getProp, getPropD, jLookup, jsOr, hu]
  · intro hcon
    have hlen := congrArg String.length hcon
    rw [String.length_append] at hlen
    have h4 : ("att-" : String).length = 4 := rfl
    have h0 : ("" : String).length = 0 := rfl
    omega

/-- Claim C7 amended-theorem witness: one entry with only a non-empty url. -/
theorem c7_attachment_extraction_witness :
    collectAttachments 1700000000000 [.jobj [("url", .jstr "https://x/img.png")]] =
      .ok [{ id := .jstr "att-1700000000000", url := "https://x/img.png",
             title := none, contentType := .jstr "image" }] :=
  (c7_attachment_extraction 1700000000000 [] "https://x/img.png" (by decide)).2.2.2.1

/-- Claim C8: `safeToISOString` is total and returns either "now" or the
platform's ISO rendering of the input; a missing, null, or unparsable
`createdAt` always yields "now" rather than an error. -/
theorem c8_timestamp_fallback (env : Env) (value : Option JValue) :
    (safeToISOString env value = env.nowIso ∨
      ∃ v s, value = some v ∧ env.dateParse v = some s ∧
        safeToISOString env value = s) ∧
    ((value = none ∨ value = some .jnull ∨
        (∃ v, value = some v ∧ env.dateParse v = none)) →
      safeToISOString env value = env.nowIso) := by
  constructor
  · cases value with
    | none => exact Or.inl rfl
    | some v =>
      by_cases ht : truthy v = true
      · cases hd : env.dateParse v with
        | none => exact Or.inl (by simp [safeToISOString, ht, hd])
        | some s => exact Or.inr ⟨v, s, rfl, hd, by simp [safeToISOString, ht, hd]⟩
      · have ht2 : truthy v = false := by
          cases htv : truthy v
          · rfl
          · exact absurd htv ht
        exact Or.inl (by simp [safeToISOString, ht2])
  · rintro (h | h | ⟨v, hv, hd⟩)
    · rw [h]
      rfl
    · rw [h]
      rfl
    · rw [hv]
      by_cases ht : truthy v = true
      · simp [safeToISOString, ht, hd]
      · have ht2 : truthy v = false := by
          cases htv : truthy v
          · rfl
          · exact absurd htv ht
        simp [safeToISOString, ht2]

/-- Claim C8 witness: the spec's `"not-a-date"` timestamp, and a missing one,
both fall back to "now". -/
theorem c8_timestamp_fallback_witness :
    safeToISOString testEnv (some (.jstr "not-a-date")) = testEnv.nowIso ∧
    safeToISOString testEnv none = testEnv.nowIso :=
  ⟨(c8_timestamp_fallback testEnv (some (.jstr "not-a-date"))).2
      (Or.inr (Or.inr ⟨.jstr "not-a-date", rfl, rfl⟩)),
   (c8_timestamp_fallback testEnv none).2 (Or.inl rfl)⟩

/-- Claim C9 counterexample: a `message` record whose `data:` payload is the
valid JSON text `null`.  Null matches none of the user/thinking/agent shapes,
so the claim requires "no callback, continue", but `data.type`
(cloud-api.ts:345) is a plain read on null: it throws a TypeError, aborting
the loop — the well-formed `connected` record after it is never processed. -/
theorem c9_counterexample :
    processRecord testEnv (("event: message\ndata: ").data ++ pNull) = .error () ∧
    testEnv.jsonParse pNull = some JValue.jnull ∧
    processRecords testEnv
        [("event: message\ndata: ").data ++ pNull,
         ("event: foo\ndata: \x7b\x7d").data] = ([], true) :=
  ⟨rfl, rfl, rfl⟩

/-- Claim C9 (amended): a record with no `data:` line, a record with an event
name other than connected/message/error/done (whatever its payload, even
null: those branches never read `data`), and a `message` record whose payload
is not JSON null and matches none of the user/thinking/agent shapes each
produce no callback and do not abort: the loop processes the following
records unchanged.  (A `message` record with payload null instead throws at
`data.type` — see the counterexample.) -/
theorem c9_unknown_tolerance (env : Env) (r : List Char)
    (rest : List (List Char)) :
    ((scanLines (jsSplitNL r) ([], [])).2 = [] → processRecord env r = .ok []) ∧
    (∀ data, (scanLines (jsSplitNL r) ([], [])).2 ≠ [] →
      env.jsonParse (scanLines (jsSplitNL r) ([], [])).2 = some data →
      String.mk (scanLines (jsSplitNL r) ([], [])).1 ≠ "connected" →
      String.mk (scanLines (jsSplitNL r) ([], [])).1 ≠ "message" →
      String.mk (scanLines (jsSplitNL r) ([], [])).1 ≠ "error" →
      String.mk (scanLines (jsSplitNL r) ([], [])).1 ≠ "done" →
      processRecord env r = .ok []) ∧
    (∀ data ty, (scanLines (jsSplitNL r) ([], [])).2 ≠ [] →
      env.jsonParse (scanLines (jsSplitNL r) ([], [])).2 = some data →
      String.mk (scanLines (jsSplitNL r) ([], [])).1 = "message" →
      getProp data "type" = .ok ty →
      isStrEq ty "user" = false →
      isStrEq ty "thinking" = false →
      truthyO (getPropD data "isAgent") = false →
      isStrEq ty "agent" = false →
      processRecord env r = .ok []) ∧
    (processRecord env r = .ok [] →
      processRecords env (r :: rest) = processRecords env rest) := by
  refine ⟨?_, ?_, ?_, ?_⟩
  · intro hed
    by_cases htrim : jsTrim r = []
    · rw [processRecord, if_pos htrim]
    · rw [processRecord, if_neg htrim, if_pos hed]
  · intro data hed hparse h1 h2 h3 h4
    rw [processRecord_some env r data hed hparse]
    exact dispatch_unknown env data _ h1 h2 h3
  · intro data ty hed hparse hmsg hty hu hth hia hag
    rw [processRecord_some env r data hed hparse, hmsg]
    exact dispatch_message_ignored env data ty hty hu hth hia hag
  · intro h
    rw [processRecords, h]
    simp

/-- Claim C9 amended-theorem witness: an `event: foo` record with valid JSON
produces no call, and a following `connected` record is processed as if it
were alone. -/
theorem c9_unknown_tolerance_witness :
    processRecord testEnv (("event: foo\ndata: \x7b\x7d").data) = .ok [] ∧
    processRecords testEnv
        [("event: foo\ndata: \x7b\x7d").data, ("event: connected\ndata: \x7b\x7d").data] =
      processRecords testEnv [("event: connected\ndata: \x7b\x7d").data] := by
  have hc := c9_unknown_tolerance testEnv (("event: foo\ndata: \x7b\x7d").data)
    [("event: connected\ndata: \x7b\x7d").data]
  have h1 := hc.2.1 (.jobj []) (by decide) rfl (by decide) (by decide)
    (by decide) (by decide)
  exact ⟨h1, hc.2.2.2 h1⟩

/-- Claim C10 counterexample: a payload with both `type:"user"` and
`isAgent:true` whose `content.attachments` is `[null]`.  The claim requires
`onUserMessage` for every such payload, but the extraction loop's `att.url`
(cloud-api.ts:351) throws a TypeError on the null entry before any dispatch:
the record yields no callback and rejects `sendMessage`. -/
theorem c10_counterexample :
    processRecord testEnv (("event: message\ndata: ").data ++ pUserAgentNullAtt) =
      .error () ∧
    testEnv.jsonParse pUserAgentNullAtt = some jUserAgentNullAtt ∧
    isStrEq (getPropD jUserAgentNullAtt "type") "user" = true ∧
    truthyO (getPropD jUserAgentNullAtt "isAgent") = true :=
  ⟨rfl, rfl, rfl, rfl⟩

/-- Claim C10 (amended): the payload-shape checks run in the fixed order
user, thinking, agent, so a `message` payload (readable, i.e. non-null) with
both `type == "user"` and `isAgent == true` never dispatches `onComplete`:
it dispatches exactly `onUserMessage` whenever the attachment extraction does
not throw, and otherwise (a null attachment entry) the TypeError aborts the
record with no callback at all; a payload with `type == "thinking"` and
`isAgent == true` always dispatches exactly `onThinking`. -/
theorem c10_classification_precedence (env : Env) (r : List Char)
    (data : JValue) (ty : Option JValue)
    (hed : (scanLines (jsSplitNL r) ([], [])).2 ≠ [])
    (hparse : env.jsonParse (scanLines (jsSplitNL r) ([], [])).2 = some data)
    (het : String.mk (scanLines (jsSplitNL r) ([], [])).1 = "message")
    (hty : getProp data "type" = .ok ty)
    (_hagent : truthyO (getPropD data "isAgent") = true) :
    (isStrEq ty "user" = true →
      (∃ m, processRecord env r = .ok [Call.onUserMessage m]) ∨
        processRecord env r = .error ()) ∧
    (isStrEq ty "user" = true → ∀ l, extractAttachments env data = .ok l →
      ∃ m, processRecord env r = .ok [Call.onUserMessage m]) ∧
    (isStrEq ty "thinking" = true → processRecord env r = .ok [Call.onThinking]) := by
  have h1 := processRecord_some env r data hed hparse
  rw [het] at h1
  refine ⟨?_, ?_, ?_⟩
  · intro hu
    rcases dispatch_message_user_cases env data ty hty hu with ⟨m, hdisp⟩ | hdisp
    · exact Or.inl ⟨m, by rw [h1, hdisp]⟩
    · exact Or.inr (by rw [h1, hdisp])
  · intro hu l hext
    exact ⟨_, by rw [h1, dispatch_message_user_ok env data ty l hty hu hext]⟩
  · intro hth
    have hu : isStrEq ty "user" = false := isStrEq_ne hth (by decide)
    rw [dispatch_message_thinking_ok env data ty hty hu hth] at h1
    exact h1

/-- Claim C10 amended-theorem witness: the `type:"user", isAgent:true`
payload (with no attachments, so the extraction is `ok`) dispatches
`onUserMessage`. -/
theorem c10_classification_precedence_witness :
    ∃ m, processRecord testEnv (("event: message\ndata: ").data ++ pUserAgent) =
      .ok [Call.onUserMessage m] :=
  (c10_classification_precedence testEnv
    (("event: message\ndata: ").data ++ pUserAgent) jUserAgent
    (some (.jstr "user")) (by decide) rfl rfl rfl rfl).2.1 rfl [] rfl
